import Mathlib

/-!
Verification development for the chatboot-api repository.

The definitions below are a shallow embedding of the TypeScript sources:
`NplService` (tool-schema construction, the function-calling orchestration
loop, `searchItems` and `validateResponseFormat`), `ProductService.searchByName`,
and `CurrencyService.convert`.  LLM completions and outbound HTTP fetches are
modelled as oracle parameters (a list of responses consumed in order, or a
function from the request messages to an optional reply); thrown exceptions are
modelled with `Except`; JavaScript objects used as string-keyed maps are
modelled as association lists with JavaScript assignment semantics
(update-in-place-or-append).  `JSON.parse` is modelled by a recursive-descent
parser `jsonParse`; a JSON number is recorded as its integer value together
with a flag stating whether the written number is a mathematical integer,
which is exactly what `Number.isInteger`-based validation in the source
observes.
-/

/-- A parsed JSON value.  `num v i` records a number: `v` is its integer value
when `i = true` (the number is a mathematical integer, as tested by
`Number.isInteger`); when `i = false` the number has a fractional part and `v`
is its truncation, never inspected by the embedded code. -/
inductive Json where
  | null : Json
  | bool (b : Bool) : Json
  | num (intVal : Int) (isInt : Bool) : Json
  | str (s : String) : Json
  | arr (elems : List Json) : Json
  | obj (fields : List (String × Json)) : Json

/-- JSON whitespace skipping. -/
def skipWs (cs : List Char) : List Char :=
  cs.dropWhile (fun c => c == ' ' || c == '\t' || c == '\n' || c == '\r')

/-- Value of a hexadecimal digit. -/
def hexDigitVal (c : Char) : Option Nat :=
  if c.isDigit then some (c.toNat - 48)
  else if 'a' ≤ c && c ≤ 'f' then some (c.toNat - 87)
  else if 'A' ≤ c && c ≤ 'F' then some (c.toNat - 55)
  else none

/-- Parse the body of a JSON string literal (the opening quote is already
consumed), handling the escape sequences of JSON.  Returns the decoded
characters and the remaining input. -/
def parseStringChars : Nat → List Char → Option (List Char × List Char)
  | 0, _ => none
  | _, [] => none
  | fuel + 1, c :: cs =>
    if c = '"' then some ([], cs)
    else if c = '\\' then
      match cs with
      | [] => none
      | e :: cs1 =>
        let esc : Option (Char × List Char) :=
          if e = '"' then some ('"', cs1)
          else if e = '\\' then some ('\\', cs1)
          else if e = '/' then some ('/', cs1)
          else if e = 'n' then some ('\n', cs1)
          else if e = 't' then some ('\t', cs1)
          else if e = 'r' then some ('\r', cs1)
          else if e = 'b' then some (Char.ofNat 8, cs1)
          else if e = 'f' then some (Char.ofNat 12, cs1)
          else if e = 'u' then
            match cs1 with
            | h1 :: h2 :: h3 :: h4 :: rest =>
              match hexDigitVal h1, hexDigitVal h2, hexDigitVal h3, hexDigitVal h4 with
              | some a, some b, some c2, some d =>
                some (Char.ofNat (((a * 16 + b) * 16 + c2) * 16 + d), rest)
              | _, _, _, _ => none
            | _ => none
          else none
        match esc with
        | none => none
        | some (ch, rest) =>
          match parseStringChars fuel rest with
          | some (out, rem) => some (ch :: out, rem)
          | none => none
    else
      match parseStringChars fuel cs with
      | some (out, rem) => some (c :: out, rem)
      | none => none

/-- Parse a maximal run of decimal digits, returning the accumulated value,
the number of digits consumed, and the remaining input. -/
def parseNatDigits : List Char → Nat → Nat → Nat × Nat × List Char
  | [], acc, cnt => (acc, cnt, [])
  | c :: cs, acc, cnt =>
    if c.isDigit then parseNatDigits cs (acc * 10 + (c.toNat - 48)) (cnt + 1)
    else (acc, cnt, c :: cs)

/-- Parse an optional JSON fraction part, returning its digits' value and
count. -/
def parseFracPart : List Char → Option (Nat × Nat × List Char)
  | '.' :: rest =>
    match parseNatDigits rest 0 0 with
    | (_, 0, _) => none
    | (fv, fc, r) => some (fv, fc, r)
  | cs => some (0, 0, cs)

/-- Parse an optional JSON exponent part. -/
def parseExpPart : List Char → Option (Int × List Char)
  | [] => some (0, [])
  | c :: rest =>
    if c = 'e' || c = 'E' then
      match rest with
      | '+' :: r2 =>
        match parseNatDigits r2 0 0 with
        | (_, 0, _) => none
        | (ev, _, r3) => some ((ev : Int), r3)
      | '-' :: r2 =>
        match parseNatDigits r2 0 0 with
        | (_, 0, _) => none
        | (ev, _, r3) => some (-(ev : Int), r3)
      | r2 =>
        match parseNatDigits r2 0 0 with
        | (_, 0, _) => none
        | (ev, _, r3) => some ((ev : Int), r3)
    else some (0, c :: rest)

/-- Parse a JSON number.  The decimal value is `sign * (ip.frac) * 10^e`;
letting `k` be the number of fraction digits and `n = ip * 10^k + frac`,
the number is a mathematical integer exactly when `10^(k-e)` divides `n`
(trivially so when `e ≥ k`), and its integer value is then `sign * n * 10^(e-k)`. -/
def parseNumber (cs : List Char) : Option ((Int × Bool) × List Char) :=
  let signAndRest : Bool × List Char :=
    match cs with
    | '-' :: rest => (true, rest)
    | _ => (false, cs)
  match parseNatDigits signAndRest.2 0 0 with
  | (_, 0, _) => none
  | (ip, _, cs2) =>
    match parseFracPart cs2 with
    | none => none
    | some (fv, fc, cs3) =>
      match parseExpPart cs3 with
      | none => none
      | some (e, cs4) =>
        let n : Nat := ip * 10 ^ fc + fv
        let result : Int × Bool :=
          if fc ≤ e then
            (((n * 10 ^ (e - fc).toNat : Nat) : Int), true)
          else
            let d := 10 ^ ((fc : Int) - e).toNat
            (((n / d : Nat) : Int), n % d == 0)
        let signedVal : Int := if signAndRest.1 then -result.1 else result.1
        some ((signedVal, result.2), cs4)

mutual

/-- Parse one JSON value (leading whitespace already skipped). -/
def parseValue : Nat → List Char → Option (Json × List Char)
  | 0, _ => none
  | fuel + 1, cs =>
    match cs with
    | [] => none
    | c :: rest =>
      if c = 'n' then
        match rest with
        | 'u' :: 'l' :: 'l' :: r => some (Json.null, r)
        | _ => none
      else if c = 't' then
        match rest with
        | 'r' :: 'u' :: 'e' :: r => some (Json.bool true, r)
        | _ => none
      else if c = 'f' then
        match rest with
        | 'a' :: 'l' :: 's' :: 'e' :: r => some (Json.bool false, r)
        | _ => none
      else if c = '"' then
        match parseStringChars (rest.length + 1) rest with
        | some (out, r) => some (Json.str (String.mk out), r)
        | none => none
      else if c = '[' then
        match skipWs rest with
        | ']' :: r => some (Json.arr [], r)
        | cs2 =>
          match parseElems fuel cs2 with
          | some (xs, r) => some (Json.arr xs, r)
          | none => none
      else if c = Char.ofNat 123 then
        match skipWs rest with
        | c2 :: r =>
          if c2 = Char.ofNat 125 then some (Json.obj [], r)
          else
            match parseMembers fuel (c2 :: r) with
            | some (fs, r2) => some (Json.obj fs, r2)
            | none => none
        | [] => none
      else
        match parseNumber (c :: rest) with
        | some ((v, i), r) => some (Json.num v i, r)
        | none => none

/-- Parse the comma-separated elements of a JSON array (at least one;
leading whitespace already skipped), up to and including the closing
bracket. -/
def parseElems : Nat → List Char → Option (List Json × List Char)
  | 0, _ => none
  | fuel + 1, cs =>
    match parseValue fuel cs with
    | none => none
    | some (v, r) =>
      match skipWs r with
      | ',' :: r2 =>
        match parseElems fuel (skipWs r2) with
        | some (vs, r3) => some (v :: vs, r3)
        | none => none
      | ']' :: r2 => some ([v], r2)
      | _ => none

/-- Parse the comma-separated members of a JSON object (at least one;
leading whitespace already skipped), up to and including the closing
brace. -/
def parseMembers : Nat → List Char → Option (List (String × Json) × List Char)
  | 0, _ => none
  | fuel + 1, cs =>
    match cs with
    | '"' :: rest =>
      match parseStringChars (rest.length + 1) rest with
      | none => none
      | some (key, r) =>
        match skipWs r with
        | ':' :: r2 =>
          match parseValue fuel (skipWs r2) with
          | none => none
          | some (v, r3) =>
            match skipWs r3 with
            | ',' :: r4 =>
              match parseMembers fuel (skipWs r4) with
              | some (fs, r5) => some ((String.mk key, v) :: fs, r5)
              | none => none
            | c4 :: r4 =>
              if c4 = Char.ofNat 125 then some ([(String.mk key, v)], r4) else none
            | [] => none
        | _ => none
    | _ => none

end

/-- Model of `JSON.parse`: parse a complete JSON document, requiring that
only whitespace remains, and returning `none` where `JSON.parse` throws. -/
def jsonParse (s : String) : Option Json :=
  match parseValue (2 * s.length + 2) (skipWs s.data) with
  | some (v, rest) => if skipWs rest = [] then some v else none
  | none => none

/-- `Number.isInteger` applied to a parsed JSON value: true exactly for
numbers that are mathematical integers. -/
def Json.isIntegerNum : Json → Bool
  | .num _ true => true
  | _ => false

/-- The integer value of a parsed JSON number (0 on other values; only used
on values passing `Json.isIntegerNum`). -/
def Json.toIntVal : Json → Int
  | .num v _ => v
  | _ => 0

/-- `NPLFunctionCallingParams` from `npl.service.ts`: one declared parameter
of a callable function.  `type` is `"string"` or `"number"`. -/
structure NPLFunctionCallingParams where
  name : String
  description : String
  type : String
  required : Bool
deriving DecidableEq

/-- `NPLFunction` from `npl.service.ts`: a named, described, parameterised
callable operation.  The callback takes the raw JSON `arguments` string of a
tool call (the source applies the callback to `JSON.parse(arguments)`; the
parse and the call are folded into one fallible step here) and either returns
a string result or fails. -/
structure NPLFunction where
  name : String
  description : String
  callback : String → Except String String
  params : List NPLFunctionCallingParams

/-- One entry of the JSON-schema `properties` object: a type and a
description. -/
structure PropSchema where
  type : String
  description : String
deriving DecidableEq

/-- JavaScript object assignment `acc[k] = v` on an association list:
update the existing entry in place if the key is present, otherwise append. -/
def jsObjInsert (k : String) (v : PropSchema) :
    List (String × PropSchema) → List (String × PropSchema)
  | [] => [(k, v)]
  | (k1, v1) :: rest =>
    if k1 = k then (k, v) :: rest else (k1, v1) :: jsObjInsert k v rest

/-- JavaScript object property read on an association list. -/
def lookupProp (k : String) : List (String × PropSchema) → Option PropSchema
  | [] => none
  | e :: rest => if e.1 = k then some e.2 else lookupProp k rest

/-- One parameter's contribution to the shared `properties` object:
`acc[param.name] = \x7b type: param.type, description: param.description \x7d`. -/
def insProp (o : List (String × PropSchema)) (p : NPLFunctionCallingParams) :
    List (String × PropSchema) :=
  jsObjInsert p.name (PropSchema.mk p.type p.description) o

/-- One parameter's contribution to the shared `required` list:
`if (param.required) requiredParams.push(param.name)`. -/
def addReq (r : List String) (p : NPLFunctionCallingParams) : List String :=
  if p.required then r ++ [p.name] else r

/-- One step of the schema-building reduction in `functionCalling`
(lines 40-49 of `npl.service.ts`), acting on the pair of the `properties`
object and the `requiredParams` list. -/
def buildStep (st : List (String × PropSchema) × List String)
    (p : NPLFunctionCallingParams) : List (String × PropSchema) × List String :=
  (insProp st.1 p, addReq st.2 p)

/-- The shared `properties` object and `required` list built by
`functionCalling` from the whole registry: a reduction over all callbacks,
iterating over each callback's params. -/
def buildProps (callbacks : List NPLFunction) :
    List (String × PropSchema) × List String :=
  callbacks.foldl (fun st f => f.params.foldl buildStep st) ([], [])

/-- The nested `parameters` schema object sent for every tool: type
`"object"`, the shared `properties` and `required`, and
`additionalProperties: false`. -/
structure ParametersSchema where
  type : String
  properties : List (String × PropSchema)
  required : List String
  additionalProperties : Bool
deriving DecidableEq

/-- The `function` member of one provider-facing tool entry. -/
structure FunctionDef where
  name : String
  description : String
  parameters : ParametersSchema
deriving DecidableEq

/-- One provider-facing tool entry: `\x7b type: "function", function: \x7b ... \x7d \x7d`. -/
structure ToolSchema where
  type : String
  function : FunctionDef
deriving DecidableEq

/-- The provider-facing tool schema array built by `functionCalling`
(lines 51-63 of `npl.service.ts`): one entry per callback, every entry
carrying the same shared parameter object. -/
def functionCallingSchema (callbacks : List NPLFunction) : List ToolSchema :=
  callbacks.map (fun f =>
    ToolSchema.mk "function"
      (FunctionDef.mk f.name f.description
        (ParametersSchema.mk "object" (buildProps callbacks).1
          (buildProps callbacks).2 false)))

/-- The human-readable tool enumeration string
`"1. name(p1, p2) 2. name2(q1)"` built by `functionCalling` (lines 65-67). -/
def functionListString (callbacks : List NPLFunction) : String :=
  String.intercalate " "
    (callbacks.enum.map (fun ic =>
      toString (ic.1 + 1) ++ ". " ++ ic.2.name ++ "(" ++
        String.intercalate ", " (ic.2.params.map (fun p => p.name)) ++ ")"))

/-- All parameters of a registry, in registry order. -/
def allParams (callbacks : List NPLFunction) : List NPLFunctionCallingParams :=
  callbacks.flatMap (fun f => f.params)

/-- The last parameter in `l` whose name is `k`, if any. -/
def lastNamed (k : String) : List NPLFunctionCallingParams →
    Option NPLFunctionCallingParams
  | [] => none
  | p :: l =>
    match lastNamed k l with
    | some q => some q
    | none => if p.name = k then some p else none

/-- A tool-call request carried by an assistant message. -/
structure ToolCall where
  id : String
  name : String
  arguments : String
deriving DecidableEq

/-- A conversation message: role, text content, the tool calls of an
assistant message, and the `tool_call_id` of a tool message. -/
structure ChatMessage where
  role : String
  content : String
  tool_calls : List ToolCall
  tool_call_id : Option String
deriving DecidableEq

/-- A plain message with only role and content. -/
def mkMsg (role content : String) : ChatMessage :=
  ChatMessage.mk role content [] none

/-- The tool-result message pushed after a callback returns
(line 95 of `npl.service.ts`). -/
def mkToolMessage (content id : String) : ChatMessage :=
  ChatMessage.mk "tool" content [] (some id)

/-- The top choice of one LLM completion: its stop reason and message. -/
structure LLMResponse where
  finish_reason : String
  message : ChatMessage
deriving DecidableEq

/-- Observable events of one orchestrator run: a completion request issued
with the given messages, or a callback invocation with the raw arguments. -/
inductive Event where
  | completion (messages : List ChatMessage) : Event
  | invoke (name : String) (arguments : String) : Event
deriving DecidableEq

/-- JavaScript `String.prototype.trim()`: strip whitespace from both ends. -/
def jsTrim (s : String) : String :=
  let ws := fun c => c == ' ' || c == '\t' || c == '\n' || c == '\r'
  String.mk (((s.data.dropWhile ws).reverse.dropWhile ws).reverse)

namespace NplService

/-- `NplService.getCallbackByFunctionName`: find the callback whose name
matches, failing with `Function <name> not found` otherwise. -/
def getCallbackByFunctionName (callbacks : List NPLFunction)
    (functionName : String) : Except String (String → Except String String) :=
  match callbacks.find? (fun cb => cb.name == functionName) with
  | some cb => Except.ok cb.callback
  | none => Except.error ("Function " ++ functionName ++ " not found")

/-- The tool-execution loop of one round (lines 91-97 of `npl.service.ts`):
process each tool call in order, looking up the callback by name, invoking
it, and collecting one tool message per call.  Returns the tool messages (or
the first failure) together with the invocation events that occurred. -/
def execTools (callbacks : List NPLFunction) :
    List ToolCall → Except String (List ChatMessage) × List Event
  | [] => (Except.ok [], [])
  | t :: ts =>
    match getCallbackByFunctionName callbacks t.name with
    | Except.error e => (Except.error e, [])
    | Except.ok cb =>
      match cb t.arguments with
      | Except.error e => (Except.error e, [Event.invoke t.name t.arguments])
      | Except.ok res =>
        match execTools callbacks ts with
        | (Except.error e, evs) =>
          (Except.error e, Event.invoke t.name t.arguments :: evs)
        | (Except.ok ms, evs) =>
          (Except.ok (mkToolMessage res t.id :: ms),
           Event.invoke t.name t.arguments :: evs)

/-- The system prompt seeded at the start of `functionCalling`. -/
def initialSystemContent (functionList : String) : String :=
  "You are a helpful customer support assistant. Use the following functions: "
    ++ functionList

/-- The system nudge pushed after each tool-execution round (line 99). -/
def nudgeContent (functionList : String) : String :=
  "Don\x27t ask the user, always do if there is some function list " ++ functionList

/-- The system message of the finalization context (line 112). -/
def finalSystemContent (input resultText : String) : String :=
  "A user asks: \"" ++ input ++ "\". The result was: " ++ resultText ++
    ". Formulate a final response."

/-- The `while (finish_reason === "tool_calls")` loop of `functionCalling`
(lines 87-106).  `oracle` supplies the successive completion responses;
running out of oracle entries models a provider failure.  Returns the loop's
final response, the accumulated messages and the unconsumed oracle entries
(or the error that was thrown), together with the events that occurred. -/
def runLoop (callbacks : List NPLFunction) (nudge : ChatMessage) :
    List LLMResponse → List ChatMessage → LLMResponse →
    Except String (LLMResponse × List ChatMessage × List LLMResponse) × List Event
  | oracle, msgs, resp =>
    if resp.finish_reason = "tool_calls" then
      match execTools callbacks resp.message.tool_calls with
      | (Except.error e, evs) => (Except.error e, evs)
      | (Except.ok toolMsgs, evs) =>
        let msgs2 := (msgs ++ [resp.message]) ++ toolMsgs ++ [nudge]
        match oracle with
        | [] => (Except.error "provider error", evs ++ [Event.completion msgs2])
        | r :: rest =>
          match runLoop callbacks nudge rest msgs2 r with
          | (res, evs2) => (res, evs ++ Event.completion msgs2 :: evs2)
    else (Except.ok (resp, msgs, oracle), [])

/-- `NplService.functionCalling`: seed the system and user messages, drive
the tool-call loop, then issue one finalization completion on a fresh
two-message context and return its trimmed content.  Any error is wrapped as
`Function calling error: <message>`.  Returns the result together with the
run's event trace. -/
def functionCalling (input : String) (callbacks : List NPLFunction)
    (oracle : List LLMResponse) : Except String String × List Event :=
  let functionList := functionListString callbacks
  let messages : List ChatMessage :=
    [mkMsg "system" (initialSystemContent functionList), mkMsg "user" input]
  match oracle with
  | [] =>
    (Except.error "Function calling error: provider error",
     [Event.completion messages])
  | r :: rest =>
    match runLoop callbacks (mkMsg "system" (nudgeContent functionList))
        rest messages r with
    | (Except.error e, evs) =>
      (Except.error ("Function calling error: " ++ e),
       Event.completion messages :: evs)
    | (Except.ok (lastResp, _finalMsgs, rem), evs) =>
      let finalMessage : List ChatMessage :=
        [mkMsg "user" input,
         mkMsg "system" (finalSystemContent input lastResp.message.content)]
      match rem with
      | [] =>
        (Except.error "Function calling error: provider error",
         Event.completion messages :: evs ++ [Event.completion finalMessage])
      | f :: _ =>
        (Except.ok (jsTrim f.message.content),
         Event.completion messages :: evs ++ [Event.completion finalMessage])

/-- The two messages `searchItems` sends to the model (lines 155-165 of
`npl.service.ts`), enumerating the items 1-indexed. -/
def searchItemsMessages (searchTerm : String) (items : List String)
    (constraints : String) : List ChatMessage :=
  let enumeratedItems := String.intercalate "\n"
    (items.enum.map (fun ic => toString (ic.1 + 1) ++ ". " ++ ic.2))
  [mkMsg "user"
      ("Please find items related to \"" ++ searchTerm ++ "\". " ++
        (if constraints != "" then "with the following constraints " ++ constraints
         else "")),
   mkMsg "system"
      ("You are a helpful assistant. Based on the user\x27s query, return a JSON array containing the indices without any decoration of the relevant items from the following list:\n"
        ++ enumeratedItems)]

/-- `NplService.validateResponseFormat`: `JSON.parse` the response and require
an array whose every element satisfies `Number.isInteger`, failing with
`Invalid response format from search: <response>` otherwise. -/
def validateResponseFormat (responseMessage : String) : Except String (List Int) :=
  match jsonParse responseMessage with
  | some (Json.arr xs) =>
    if xs.all Json.isIntegerNum then Except.ok (xs.map Json.toIntVal)
    else Except.error ("Invalid response format from search: " ++ responseMessage)
  | _ => Except.error ("Invalid response format from search: " ++ responseMessage)

/-- `NplService.searchItems`: ask the model for the relevant indices and
validate its reply; any failure (a failed completion or an invalid response
shape) is swallowed and reported as the empty list.  `complete` is the LLM
oracle, mapping the request messages to the reply content (`none` models a
failed call). -/
def searchItems (complete : List ChatMessage → Option String)
    (searchTerm : String) (items : List String) (constraints : String) :
    List Int :=
  match complete (searchItemsMessages searchTerm items constraints) with
  | none => []
  | some responseMessage =>
    match validateResponseFormat responseMessage with
    | Except.ok relevantIndices => relevantIndices
    | Except.error _ => []

end NplService

/-- The validation predicate of `validateResponseFormat` on a parse result:
the response is a JSON array whose every element is an integer. -/
def isIntArrayResp : Option Json → Bool
  | some (Json.arr xs) => xs.all Json.isIntegerNum
  | _ => false

/-- `Product` from `product.service.ts`.  At runtime the products are CSV
rows parsed with `columns: true` and cast, so every field holds the raw
column string. -/
structure Product where
  displayTitle : String
  embeddingText : String
  url : String
  imageUrl : String
  productType : String
  discount : String
  price : String
  variants : String
  createDate : String
deriving DecidableEq

/-- JSON string escaping of one character, as performed by `JSON.stringify`. -/
def escapeJsonChar (c : Char) : String :=
  if c = '"' then "\\\""
  else if c = '\\' then "\\\\"
  else if c = '\n' then "\\n"
  else if c = '\t' then "\\t"
  else if c = '\r' then "\\r"
  else if c = Char.ofNat 8 then "\\b"
  else if c = Char.ofNat 12 then "\\f"
  else if c.toNat < 32 then
    "\\u00" ++ String.mk [(Nat.digitChar (c.toNat / 16)), (Nat.digitChar (c.toNat % 16))]
  else String.singleton c

/-- A JSON string literal for `s`. -/
def quoteJson (s : String) : String :=
  "\"" ++ String.join (s.data.map escapeJsonChar) ++ "\""

/-- `JSON.stringify` of one product record (fields in declaration order). -/
def stringifyProduct (p : Product) : String :=
  "\x7b" ++ String.intercalate ","
    [quoteJson "displayTitle" ++ ":" ++ quoteJson p.displayTitle,
     quoteJson "embeddingText" ++ ":" ++ quoteJson p.embeddingText,
     quoteJson "url" ++ ":" ++ quoteJson p.url,
     quoteJson "imageUrl" ++ ":" ++ quoteJson p.imageUrl,
     quoteJson "productType" ++ ":" ++ quoteJson p.productType,
     quoteJson "discount" ++ ":" ++ quoteJson p.discount,
     quoteJson "price" ++ ":" ++ quoteJson p.price,
     quoteJson "variants" ++ ":" ++ quoteJson p.variants,
     quoteJson "createDate" ++ ":" ++ quoteJson p.createDate] ++ "\x7d"

/-- `JSON.stringify` of one array slot: an absent (`undefined`) element is
serialized as `null`. -/
def optProductToJson : Option Product → String
  | none => "null"
  | some p => stringifyProduct p

/-- `JSON.stringify` of the relevant-products array. -/
def jsonStringifyProducts (xs : List (Option Product)) : String :=
  "[" ++ String.intercalate "," (xs.map optProductToJson) ++ "]"

/-- JavaScript array indexing `l[i]` with a (possibly negative or
out-of-range) integer index: `undefined` outside `0..length-1`. -/
def listGetJS {α : Type} (l : List α) (i : Int) : Option α :=
  if h : 0 ≤ i ∧ i.toNat < l.length then some (l.get ⟨i.toNat, h.2⟩) else none

/-- The NestJS exceptions thrown by the product search:
`NotFoundException` (HTTP 404) and `BadRequestException` (HTTP 400). -/
inductive HttpError where
  | notFound (msg : String) : HttpError
  | badRequest (msg : String) : HttpError
deriving DecidableEq

/-- The `message` carried by an exception. -/
def HttpError.message : HttpError → String
  | .notFound m => m
  | .badRequest m => m

namespace ProductService

/-- `ProductService.searchByName`: ask `searchItems` for the relevant
indices over the product titles; an empty result raises a
`NotFoundException`, a non-empty result maps each index `i` to the catalog
entry at position `i - 1` (unchecked; an out-of-range index yields
`undefined`, serialized as `null`) and returns the `JSON.stringify` of the
array.  The surrounding `catch` rewraps any error thrown in the body —
including the `NotFoundException` — as
`BadRequestException("Unable to search products: <message>")`. -/
def searchByName (products : List Product)
    (complete : List ChatMessage → Option String) (name : String) :
    Except HttpError String :=
  let items := products.map (fun p => p.displayTitle)
  let indices := NplService.searchItems complete name items "Must select 2 items."
  let body : Except HttpError String :=
    if indices.length = 0 then
      Except.error (HttpError.notFound ("No products found for: " ++ name))
    else
      Except.ok (jsonStringifyProducts
        (indices.map (fun index => listGetJS products (index - 1))))
  match body with
  | Except.ok s => Except.ok s
  | Except.error e =>
    Except.error (HttpError.badRequest ("Unable to search products: " ++ e.message))

end ProductService

/-- JavaScript truthiness of an object read whose value is a string
(`!currencies[from]`): false for an absent key and for the empty string. -/
def truthyStr : Option String → Bool
  | none => false
  | some s => !(s == "")

/-- JavaScript truthiness of an object read whose value is a number
(`!ratesData.rates[from]`): false for an absent key and for zero. -/
def truthyRat : Option ℚ → Bool
  | none => false
  | some q => if q = 0 then false else true

/-- JavaScript object property read on an association list of fetched JSON
data. -/
def jsLookup {α : Type} (o : List (String × α)) (k : String) : Option α :=
  (o.find? (fun e => e.1 == k)).map (fun e => e.2)

namespace CurrencyService

/-- `CurrencyService.convert`: the two outbound fetches are modelled by
`currenciesFetch` (the decoded body of `currencies.json`, a map from
currency code to display name, `none` for a non-2xx response) and
`ratesFetch` (the `rates` member of `latest.json`, a map from currency code
to rate, `none` for a non-2xx response).  Mirrors the source's truthiness
tests `!currencies[from]`, `!ratesData.rates[from]` and the cross-rate
formula `(amount / rates[from]) * rates[to]`. -/
def convert (currenciesFetch : Option (List (String × String)))
    (ratesFetch : Option (List (String × ℚ))) (amount : ℚ)
    (fromCode toCode : String) : Except String ℚ :=
  match currenciesFetch with
  | none =>
    Except.error "CurrencyService: Unable to fetch the currency list. Please check the API endpoint."
  | some currencies =>
    if !(truthyStr (jsLookup currencies fromCode))
        || !(truthyStr (jsLookup currencies toCode)) then
      Except.error ("CurrencyService: Invalid currency code(s): \"" ++ fromCode ++
        "\" or \"" ++ toCode ++ "\". Please ensure both codes are valid.")
    else
      match ratesFetch with
      | none =>
        Except.error "CurrencyService: Unable to fetch the latest exchange rates. Please check the API endpoint."
      | some rates =>
        if !(truthyRat (jsLookup rates fromCode))
            || !(truthyRat (jsLookup rates toCode)) then
          Except.error ("CurrencyService: Exchange rate data not found for the currency code(s): \"" ++
            fromCode ++ "\" or \"" ++ toCode ++ "\". Please ensure both codes are valid.")
        else
          Except.ok ((amount / (jsLookup rates fromCode).getD 0) *
            (jsLookup rates toCode).getD 0)

end CurrencyService

/-- Witness fixture: a tool with two parameters, distinct names. -/
def c1Tool1 : NPLFunction :=
  NPLFunction.mk "f" "df" (fun _ => Except.ok "")
    [NPLFunctionCallingParams.mk "a" "da" "number" true,
     NPLFunctionCallingParams.mk "b" "db" "string" false]

/-- Witness fixture: a second tool with one parameter, distinct from the
first tool's names. -/
def c1Tool2 : NPLFunction :=
  NPLFunction.mk "g" "dg" (fun _ => Except.ok "")
    [NPLFunctionCallingParams.mk "c" "dc" "string" true]

/-- Witness fixture: a tool declaring a required parameter named `amount`. -/
def c2Tool1 : NPLFunction :=
  NPLFunction.mk "f" "df" (fun _ => Except.ok "")
    [NPLFunctionCallingParams.mk "amount" "first description" "number" true]

/-- Witness fixture: a later tool redeclaring `amount` with another type and
description. -/
def c2Tool2 : NPLFunction :=
  NPLFunction.mk "g" "dg" (fun _ => Except.ok "")
    [NPLFunctionCallingParams.mk "amount" "second description" "string" false]

/-- Witness fixture: a tool whose callback echoes its raw arguments. -/
def c3Tool : NPLFunction :=
  NPLFunction.mk "f" "df" (fun args => Except.ok ("R:" ++ args))
    [NPLFunctionCallingParams.mk "x" "dx" "string" true]

/-- Witness fixture: two tool-call requests in one assistant message. -/
def c3Calls : List ToolCall :=
  [ToolCall.mk "id1" "f" "a1", ToolCall.mk "id2" "f" "a2"]

/-- Witness fixture: a first response requesting two tool calls. -/
def c3Resp0 : LLMResponse :=
  LLMResponse.mk "tool_calls" (ChatMessage.mk "assistant" "" c3Calls none)

/-- Witness fixture: a second response that stops the loop. -/
def c3Resp1 : LLMResponse :=
  LLMResponse.mk "stop" (mkMsg "assistant" "done")

/-- Witness fixture: a first response with no tool calls. -/
def c4Resp0 : LLMResponse :=
  LLMResponse.mk "stop" (mkMsg "assistant" "direct answer")

/-- Witness fixture: the finalization response. -/
def c4Final : LLMResponse :=
  LLMResponse.mk "stop" (mkMsg "assistant" "  final answer  ")

/-- Witness fixture: a registered tool. -/
def c5Tool : NPLFunction :=
  NPLFunction.mk "f" "df" (fun args => Except.ok ("R:" ++ args))
    [NPLFunctionCallingParams.mk "x" "dx" "string" true]

/-- Witness fixture: a known tool call preceding the unknown one. -/
def c5Pre : List ToolCall := [ToolCall.mk "id1" "f" "a1"]

/-- Witness fixture: a request for a tool name absent from the registry. -/
def c5Bad : ToolCall := ToolCall.mk "id2" "missing" "a2"

/-- Witness fixture: a response requesting a known call then an unknown one. -/
def c5Resp0 : LLMResponse :=
  LLMResponse.mk "tool_calls" (ChatMessage.mk "assistant" "" (c5Pre ++ [c5Bad]) none)

/-- Witness fixture: a loop-ending response carrying result text. -/
def c8Resp0 : LLMResponse :=
  LLMResponse.mk "stop" (mkMsg "assistant" "tool result text")

/-- Witness fixture: the finalization response. -/
def c8Final : LLMResponse :=
  LLMResponse.mk "stop" (mkMsg "assistant" " the answer ")

theorem foldl_buildStep_split (l : List NPLFunctionCallingParams)
    (o : List (String × PropSchema)) (r : List String) :
    l.foldl buildStep (o, r) = (l.foldl insProp o, l.foldl addReq r) := by
  induction l generalizing o r with
  | nil => rfl
  | cons p l ih =>
    simp only [List.foldl_cons]
    exact ih (insProp o p) (addReq r p)

theorem foldl_params_flat (cbs : List NPLFunction)
    (init : List (String × PropSchema) × List String) :
    cbs.foldl (fun st f => f.params.foldl buildStep st) init
      = (allParams cbs).foldl buildStep init := by
  induction cbs generalizing init with
  | nil => rfl
  | cons f cbs ih =>
    simp only [List.foldl_cons, allParams, List.flatMap_cons, List.foldl_append]
    exact ih _

theorem buildProps_fst (cbs : List NPLFunction) :
    (buildProps cbs).1 = (allParams cbs).foldl insProp [] := by
  rw [buildProps, foldl_params_flat, foldl_buildStep_split]

theorem buildProps_snd (cbs : List NPLFunction) :
    (buildProps cbs).2 = (allParams cbs).foldl addReq [] := by
  rw [buildProps, foldl_params_flat, foldl_buildStep_split]

theorem foldl_addReq_eq (l : List NPLFunctionCallingParams) (r : List String) :
    l.foldl addReq r
      = r ++ (l.filter (fun p => p.required)).map (fun p => p.name) := by
  induction l generalizing r with
  | nil => simp
  | cons p l ih =>
    simp only [List.foldl_cons, addReq, List.filter_cons]
    cases hp : p.required with
    | true => simp [ih]
    | false => simp [ih]

theorem jsObjInsert_of_not_mem (k : String) (v : PropSchema)
    (o : List (String × PropSchema)) (h : ∀ e ∈ o, e.1 ≠ k) :
    jsObjInsert k v o = o ++ [(k, v)] := by
  induction o with
  | nil => rfl
  | cons e o ih =>
    obtain ⟨k1, v1⟩ := e
    simp only [jsObjInsert]
    rw [if_neg (h (k1, v1) (List.mem_cons_self _ _))]
    rw [ih (fun e he => h e (List.mem_cons_of_mem _ he))]
    rfl

theorem foldl_insProp_of_nodup (l : List NPLFunctionCallingParams)
    (o : List (String × PropSchema))
    (hd : ∀ e ∈ o, ∀ p ∈ l, e.1 ≠ p.name)
    (hn : (l.map (fun p => p.name)).Nodup) :
    l.foldl insProp o
      = o ++ l.map (fun p => (p.name, PropSchema.mk p.type p.description)) := by
  induction l generalizing o with
  | nil => simp
  | cons p l ih =>
    simp only [List.map_cons, List.nodup_cons] at hn
    simp only [List.foldl_cons]
    have h1 : insProp o p = o ++ [(p.name, PropSchema.mk p.type p.description)] :=
      jsObjInsert_of_not_mem _ _ _ (fun e he => hd e he p (List.mem_cons_self _ _))
    rw [h1, ih]
    · simp
    · intro e he q hq
      rcases List.mem_append.mp he with h2 | h2
      · exact hd e h2 q (List.mem_cons_of_mem _ hq)
      · have : e = (p.name, PropSchema.mk p.type p.description) := by
          simpa using h2
        rw [this]
        intro hcontra
        have hc2 : p.name = q.name := hcontra
        have hmem : q.name ∈ l.map (fun p => p.name) :=
          List.mem_map_of_mem (fun p => p.name) hq
        rw [← hc2] at hmem
        exact hn.1 hmem
    · exact hn.2

theorem required_names_flat (cbs : List NPLFunction) :
    ((allParams cbs).filter (fun p => p.required)).map (fun p => p.name)
      = cbs.flatMap
          (fun f => (f.params.filter (fun p => p.required)).map (fun p => p.name)) := by
  induction cbs with
  | nil => rfl
  | cons f cbs ih =>
    simp only [allParams, List.flatMap_cons, List.filter_append, List.map_append] at ih ⊢
    rw [ih]

/-- C1: for a registry whose parameter names are pairwise distinct across
tools, `functionCalling` builds one schema entry per tool, each carrying the
same shared `object` parameter schema, whose `properties` are exactly the
union of all tools' parameters with their declared type and description,
whose `required` list is the union of each tool's required parameter names,
and whose `additionalProperties` is disallowed. -/
theorem functionCalling_schema_of_distinct_params (cbs : List NPLFunction)
    (hnodup : ((allParams cbs).map (fun p => p.name)).Nodup) :
    functionCallingSchema cbs = cbs.map (fun f =>
      ToolSchema.mk "function" (FunctionDef.mk f.name f.description
        (ParametersSchema.mk "object"
          ((allParams cbs).map (fun p => (p.name, PropSchema.mk p.type p.description)))
          (cbs.flatMap
            (fun f2 => (f2.params.filter (fun p => p.required)).map (fun p => p.name)))
          false))) := by
  have h1 : (buildProps cbs).1
      = (allParams cbs).map (fun p => (p.name, PropSchema.mk p.type p.description)) := by
    rw [buildProps_fst, foldl_insProp_of_nodup _ _ (by simp) hnodup]
    simp
  have h2 : (buildProps cbs).2
      = cbs.flatMap
          (fun f2 => (f2.params.filter (fun p => p.required)).map (fun p => p.name)) := by
    rw [buildProps_snd, foldl_addReq_eq, required_names_flat]
    simp
  rw [functionCallingSchema, h1, h2]

theorem c1_schema_witness :
    functionCallingSchema [c1Tool1, c1Tool2] =
      [ToolSchema.mk "function" (FunctionDef.mk "f" "df"
        (ParametersSchema.mk "object"
          [("a", PropSchema.mk "number" "da"), ("b", PropSchema.mk "string" "db"),
           ("c", PropSchema.mk "string" "dc")]
          ["a", "c"] false)),
       ToolSchema.mk "function" (FunctionDef.mk "g" "dg"
        (ParametersSchema.mk "object"
          [("a", PropSchema.mk "number" "da"), ("b", PropSchema.mk "string" "db"),
           ("c", PropSchema.mk "string" "dc")]
          ["a", "c"] false))] := by
  rw [functionCalling_schema_of_distinct_params [c1Tool1, c1Tool2] (by decide)]
  rfl

theorem lookupProp_jsObjInsert (k n : String) (v : PropSchema)
    (o : List (String × PropSchema)) :
    lookupProp k (jsObjInsert n v o) = if n = k then some v else lookupProp k o := by
  induction o with
  | nil => simp [jsObjInsert, lookupProp]
  | cons e o ih =>
    obtain ⟨k1, v1⟩ := e
    simp only [jsObjInsert]
    by_cases h1 : k1 = n
    · rw [if_pos h1]
      by_cases h2 : n = k
      · simp [lookupProp, h2]
      · simp [lookupProp, h2, h1, lookupProp]
    · rw [if_neg h1]
      by_cases h2 : n = k <;> by_cases h3 : k1 = k <;>
        simp_all [lookupProp]

theorem lookupProp_foldl_insProp (k : String) (l : List NPLFunctionCallingParams)
    (o : List (String × PropSchema)) :
    lookupProp k (l.foldl insProp o)
      = (match lastNamed k l with
         | some p => some (PropSchema.mk p.type p.description)
         | none => lookupProp k o) := by
  induction l generalizing o with
  | nil => simp [lastNamed]
  | cons p l ih =>
    simp only [List.foldl_cons, lastNamed]
    rw [ih]
    cases h : lastNamed k l with
    | some q => simp
    | none =>
      simp only [insProp, lookupProp_jsObjInsert]
      by_cases hp : p.name = k <;> simp [hp]

theorem lastNamed_append (k : String) (l1 l2 : List NPLFunctionCallingParams) :
    lastNamed k (l1 ++ l2)
      = (match lastNamed k l2 with
         | some q => some q
         | none => lastNamed k l1) := by
  induction l1 with
  | nil => cases h : lastNamed k l2 <;> simp [lastNamed, h]
  | cons p l1 ih =>
    have step : lastNamed k (p :: l1 ++ l2)
        = (match lastNamed k (l1 ++ l2) with
           | some q => some q
           | none => if p.name = k then some p else none) := rfl
    rw [step, ih]
    cases h2 : lastNamed k l2 <;> rfl

theorem lastNamed_eq_none (k : String) (l : List NPLFunctionCallingParams)
    (h : ∀ p ∈ l, p.name ≠ k) : lastNamed k l = none := by
  induction l with
  | nil => rfl
  | cons p l ih =>
    simp only [lastNamed, ih (fun q hq => h q (List.mem_cons_of_mem _ hq))]
    rw [if_neg (h p (List.mem_cons_self _ _))]

theorem lastNamed_of_last (k : String) (l1 l2 : List NPLFunctionCallingParams)
    (p : NPLFunctionCallingParams) (hp : p.name = k)
    (h2 : ∀ q ∈ l2, q.name ≠ k) :
    lastNamed k (l1 ++ p :: l2) = some p := by
  rw [lastNamed_append]
  have hmid : lastNamed k (p :: l2) = some p := by
    simp [lastNamed, lastNamed_eq_none k l2 h2, hp]
  rw [hmid]

/-- C2: when two tools declare a parameter with the same name, the built
schema's shared `properties` entry for that name is the one from the tool
appearing later in registry order (the later declaration silently overwrites
the earlier), and membership in the built `required` list is the union of
the required parameter names across all tools. -/
theorem functionCalling_schema_shared_param_last_wins
    (cbs1 cbs2 : List NPLFunction) (g : NPLFunction)
    (gp1 gp2 : List NPLFunctionCallingParams) (p : NPLFunctionCallingParams)
    (n : String)
    (hg : g.params = gp1 ++ p :: gp2)
    (hp : p.name = n)
    (hearlier : ∃ f ∈ cbs1, ∃ q ∈ f.params, q.name = n)
    (hlastg : ∀ q ∈ gp2, q.name ≠ n)
    (hlast : ∀ f ∈ cbs2, ∀ q ∈ f.params, q.name ≠ n) :
    lookupProp n (buildProps (cbs1 ++ g :: cbs2)).1
        = some (PropSchema.mk p.type p.description)
    ∧ ∀ x, x ∈ (buildProps (cbs1 ++ g :: cbs2)).2
        ↔ ∃ f ∈ cbs1 ++ g :: cbs2, ∃ q ∈ f.params, q.required = true ∧ q.name = x := by
  constructor
  · rw [buildProps_fst, lookupProp_foldl_insProp]
    have hsplit : allParams (cbs1 ++ g :: cbs2)
        = (allParams cbs1 ++ gp1) ++ p :: (gp2 ++ allParams cbs2) := by
      simp [allParams, hg]
    have hnone : ∀ q ∈ gp2 ++ allParams cbs2, q.name ≠ n := by
      intro q hq
      rcases List.mem_append.mp hq with h | h
      · exact hlastg q h
      · rcases List.mem_flatMap.mp h with ⟨f, hf, hqf⟩
        exact hlast f hf q hqf
    rw [hsplit, lastNamed_of_last n _ _ p hp hnone]
  · intro x
    rw [buildProps_snd, foldl_addReq_eq]
    simp only [List.nil_append, List.mem_map, List.mem_filter]
    constructor
    · rintro ⟨q, ⟨hq, hreq⟩, hname⟩
      rcases List.mem_flatMap.mp hq with ⟨f, hf, hqf⟩
      exact ⟨f, hf, q, hqf, hreq, hname⟩
    · rintro ⟨f, hf, q, hqf, hreq, hname⟩
      exact ⟨q, ⟨List.mem_flatMap.mpr ⟨f, hf, hqf⟩, hreq⟩, hname⟩

theorem c2_last_wins_witness :
    lookupProp "amount" (buildProps [c2Tool1, c2Tool2]).1
        = some (PropSchema.mk "string" "second description")
    ∧ "amount" ∈ (buildProps [c2Tool1, c2Tool2]).2 := by
  have h := functionCalling_schema_shared_param_last_wins [c2Tool1] [] c2Tool2 [] []
    (NPLFunctionCallingParams.mk "amount" "second description" "string" false) "amount"
    rfl rfl
    ⟨c2Tool1, List.mem_cons_self _ _,
      NPLFunctionCallingParams.mk "amount" "first description" "number" true,
      List.mem_cons_self _ _, rfl⟩
    (by intro q hq; cases hq)
    (by intro f hf; cases hf)
  refine ⟨h.1, ?_⟩
  exact (h.2 "amount").mpr
    ⟨c2Tool1, List.mem_cons_self _ _,
      NPLFunctionCallingParams.mk "amount" "first description" "number" true,
      List.mem_cons_self _ _, rfl, rfl⟩

theorem runLoop_not_tool_calls (cbs : List NPLFunction) (nudge : ChatMessage)
    (oracle : List LLMResponse) (msgs : List ChatMessage) (resp : LLMResponse)
    (h : resp.finish_reason ≠ "tool_calls") :
    NplService.runLoop cbs nudge oracle msgs resp
      = (Except.ok (resp, msgs, oracle), []) := by
  unfold NplService.runLoop
  rw [if_neg h]

theorem runLoop_exec_error (cbs : List NPLFunction) (nudge : ChatMessage)
    (oracle : List LLMResponse) (msgs : List ChatMessage) (resp : LLMResponse)
    (e : String) (evs : List Event)
    (h : resp.finish_reason = "tool_calls")
    (hexec : NplService.execTools cbs resp.message.tool_calls
      = (Except.error e, evs)) :
    NplService.runLoop cbs nudge oracle msgs resp = (Except.error e, evs) := by
  unfold NplService.runLoop
  rw [if_pos h, hexec]

theorem runLoop_exec_ok (cbs : List NPLFunction) (nudge : ChatMessage)
    (r : LLMResponse) (rest : List LLMResponse) (msgs : List ChatMessage)
    (resp : LLMResponse) (tms : List ChatMessage) (tevs : List Event)
    (h : resp.finish_reason = "tool_calls")
    (hexec : NplService.execTools cbs resp.message.tool_calls
      = (Except.ok tms, tevs)) :
    NplService.runLoop cbs nudge (r :: rest) msgs resp
      = ((NplService.runLoop cbs nudge rest ((msgs ++ [resp.message]) ++ tms ++ [nudge]) r).1,
         tevs ++ Event.completion ((msgs ++ [resp.message]) ++ tms ++ [nudge])
           :: (NplService.runLoop cbs nudge rest ((msgs ++ [resp.message]) ++ tms ++ [nudge]) r).2) := by
  conv_lhs => unfold NplService.runLoop
  rw [if_pos h, hexec]

theorem execTools_ok_spec (cbs : List NPLFunction) (ts : List ToolCall)
    (tms : List ChatMessage) (tevs : List Event)
    (h : NplService.execTools cbs ts = (Except.ok tms, tevs)) :
    tevs = ts.map (fun t => Event.invoke t.name t.arguments)
    ∧ tms.length = ts.length
    ∧ ∀ (i : Nat) (t : ToolCall), ts[i]? = some t →
        ∃ cb c, NplService.getCallbackByFunctionName cbs t.name = Except.ok cb
          ∧ cb t.arguments = Except.ok c
          ∧ tms[i]? = some (mkToolMessage c t.id) := by
  induction ts generalizing tms tevs with
  | nil =>
    have h0 : ((Except.ok [] : Except String (List ChatMessage)), ([] : List Event))
        = (Except.ok tms, tevs) := h
    simp only [Prod.mk.injEq, Except.ok.injEq] at h0
    obtain ⟨h1, h2⟩ := h0
    subst h1; subst h2
    refine ⟨rfl, rfl, ?_⟩
    intro i t hti
    simp at hti
  | cons t ts ih =>
    cases hcb : NplService.getCallbackByFunctionName cbs t.name with
    | error e => exact absurd h (by simp [NplService.execTools, hcb])
    | ok cb =>
      cases hres : cb t.arguments with
      | error e => exact absurd h (by simp [NplService.execTools, hcb, hres])
      | ok res =>
        rcases hrec : NplService.execTools cbs ts with ⟨res2, evs2⟩
        cases res2 with
        | error e => exact absurd h (by simp [NplService.execTools, hcb, hres, hrec])
        | ok ms =>
          have hstep : NplService.execTools cbs (t :: ts)
              = (Except.ok (mkToolMessage res t.id :: ms),
                 Event.invoke t.name t.arguments :: evs2) := by
            simp [NplService.execTools, hcb, hres, hrec]
          have h2 := hstep.symm.trans h
          simp only [Prod.mk.injEq, Except.ok.injEq] at h2
          obtain ⟨h3, h4⟩ := h2
          subst h3; subst h4
          obtain ⟨ih1, ih2, ih3⟩ := ih ms evs2 hrec
          refine ⟨by simp [ih1], by simp [ih2], ?_⟩
          intro i t2 hti
          cases i with
          | zero =>
            simp only [List.getElem?_cons_zero, Option.some.injEq] at hti
            subst hti
            exact ⟨cb, res, hcb, hres, by simp⟩
          | succ n =>
            simp only [List.getElem?_cons_succ] at hti ⊢
            exact ih3 n t2 hti

theorem execTools_unknown_after_ok (cbs : List NPLFunction)
    (pre post : List ToolCall) (bad : ToolCall)
    (tms : List ChatMessage) (tevs : List Event)
    (hpre : NplService.execTools cbs pre = (Except.ok tms, tevs))
    (hbad : cbs.find? (fun cb => cb.name == bad.name) = none) :
    NplService.execTools cbs (pre ++ bad :: post)
      = (Except.error ("Function " ++ bad.name ++ " not found"), tevs) := by
  induction pre generalizing tms tevs with
  | nil =>
    have h0 : ((Except.ok [] : Except String (List ChatMessage)), ([] : List Event))
        = (Except.ok tms, tevs) := hpre
    simp only [Prod.mk.injEq, Except.ok.injEq] at h0
    obtain ⟨h1, h2⟩ := h0
    subst h1; subst h2
    simp [NplService.execTools, NplService.getCallbackByFunctionName, hbad]
  | cons t pre ih =>
    cases hcb : NplService.getCallbackByFunctionName cbs t.name with
    | error e => exact absurd hpre (by simp [NplService.execTools, hcb])
    | ok cb =>
      cases hres : cb t.arguments with
      | error e => exact absurd hpre (by simp [NplService.execTools, hcb, hres])
      | ok res =>
        rcases hrec : NplService.execTools cbs pre with ⟨res2, evs2⟩
        cases res2 with
        | error e => exact absurd hpre (by simp [NplService.execTools, hcb, hres, hrec])
        | ok ms =>
          have hstep : NplService.execTools cbs (t :: pre)
              = (Except.ok (mkToolMessage res t.id :: ms),
                 Event.invoke t.name t.arguments :: evs2) := by
            simp [NplService.execTools, hcb, hres, hrec]
          have h2 := hstep.symm.trans hpre
          simp only [Prod.mk.injEq, Except.ok.injEq] at h2
          obtain ⟨h3, h4⟩ := h2
          subst h3; subst h4
          have hrec2 := ih ms evs2 hrec
          simp [List.cons_append, NplService.execTools, hcb, hres, hrec2]

/-- C4: when the first completion's top-choice stop reason is not
`tool_calls`, `functionCalling` performs exactly one completion round plus
the one finalization completion (the event trace has exactly those two
completion events and no invocation event), never invokes any callback, and
returns the finalization response's trimmed content. -/
theorem functionCalling_no_tools_single_round (input : String)
    (cbs : List NPLFunction) (r0 f : LLMResponse) (rest : List LLMResponse)
    (h : r0.finish_reason ≠ "tool_calls") :
    NplService.functionCalling input cbs (r0 :: f :: rest)
      = (Except.ok (jsTrim f.message.content),
         [Event.completion [mkMsg "system" (NplService.initialSystemContent (functionListString cbs)),
            mkMsg "user" input],
          Event.completion [mkMsg "user" input,
            mkMsg "system" (NplService.finalSystemContent input r0.message.content)]]) := by
  simp only [NplService.functionCalling]
  rw [runLoop_not_tool_calls _ _ _ _ _ h]
  rfl

theorem c4_no_tools_witness :
    NplService.functionCalling "hello" [] [c4Resp0, c4Final]
      = (Except.ok "final answer",
         [Event.completion [mkMsg "system" (NplService.initialSystemContent (functionListString [])),
            mkMsg "user" "hello"],
          Event.completion [mkMsg "user" "hello",
            mkMsg "system" (NplService.finalSystemContent "hello" "direct answer")]]) :=
  functionCalling_no_tools_single_round "hello" [] c4Resp0 c4Final [] (by decide)

/-- C3: in a round whose model response requests several tool calls and
whose tool processing succeeds, the callbacks are invoked exactly once per
request, strictly in the order the model listed them (the invocation events
equal the request list mapped to invocations), the tool-result messages
carry each callback's result and the original `tool_call_id` at the same
position as the request, and the next completion is issued only after all
results and exactly one system nudge message have been appended. -/
theorem functionCalling_multi_tool_round (input : String) (cbs : List NPLFunction)
    (r0 r1 : LLMResponse) (rest : List LLMResponse)
    (tms : List ChatMessage) (tevs : List Event)
    (hfin : r0.finish_reason = "tool_calls")
    (hexec : NplService.execTools cbs r0.message.tool_calls = (Except.ok tms, tevs)) :
    tevs = r0.message.tool_calls.map (fun t => Event.invoke t.name t.arguments)
    ∧ tms.length = r0.message.tool_calls.length
    ∧ (∀ (i : Nat) (t : ToolCall), r0.message.tool_calls[i]? = some t →
        ∃ cb c, NplService.getCallbackByFunctionName cbs t.name = Except.ok cb
          ∧ cb t.arguments = Except.ok c
          ∧ tms[i]? = some (mkToolMessage c t.id))
    ∧ ∃ tail, (NplService.functionCalling input cbs (r0 :: r1 :: rest)).2
        = Event.completion [mkMsg "system" (NplService.initialSystemContent (functionListString cbs)),
            mkMsg "user" input]
          :: (tevs ++ Event.completion
                (([mkMsg "system" (NplService.initialSystemContent (functionListString cbs)),
                    mkMsg "user" input] ++ [r0.message])
                  ++ tms ++ [mkMsg "system" (NplService.nudgeContent (functionListString cbs))])
              :: tail) := by
  obtain ⟨h1, h2, h3⟩ := execTools_ok_spec cbs _ tms tevs hexec
  refine ⟨h1, h2, h3, ?_⟩
  simp only [NplService.functionCalling]
  rw [runLoop_exec_ok cbs (mkMsg "system" (NplService.nudgeContent (functionListString cbs)))
    r1 rest [mkMsg "system" (NplService.initialSystemContent (functionListString cbs)),
      mkMsg "user" input] r0 tms tevs hfin hexec]
  rcases hY : NplService.runLoop cbs (mkMsg "system" (NplService.nudgeContent (functionListString cbs)))
      rest (([mkMsg "system" (NplService.initialSystemContent (functionListString cbs)),
        mkMsg "user" input] ++ [r0.message])
          ++ tms ++ [mkMsg "system" (NplService.nudgeContent (functionListString cbs))]) r1
    with ⟨res2, evs2⟩
  cases res2 with
  | error e => exact ⟨evs2, by simp⟩
  | ok trip =>
    rcases trip with ⟨lastResp, mm, rem⟩
    cases rem with
    | nil =>
      refine ⟨evs2 ++ [Event.completion [mkMsg "user" input,
        mkMsg "system" (NplService.finalSystemContent input lastResp.message.content)]], ?_⟩
      simp
    | cons fr rem2 =>
      refine ⟨evs2 ++ [Event.completion [mkMsg "user" input,
        mkMsg "system" (NplService.finalSystemContent input lastResp.message.content)]], ?_⟩
      simp

theorem c3_multi_tool_witness :
    NplService.execTools [c3Tool] c3Resp0.message.tool_calls
        = (Except.ok [mkToolMessage "R:a1" "id1", mkToolMessage "R:a2" "id2"],
           [Event.invoke "f" "a1", Event.invoke "f" "a2"])
    ∧ ∃ tail, (NplService.functionCalling "go" [c3Tool] (c3Resp0 :: c3Resp1 :: [])).2
        = Event.completion [mkMsg "system" (NplService.initialSystemContent (functionListString [c3Tool])),
            mkMsg "user" "go"]
          :: ([Event.invoke "f" "a1", Event.invoke "f" "a2"] ++ Event.completion
                (([mkMsg "system" (NplService.initialSystemContent (functionListString [c3Tool])),
                    mkMsg "user" "go"] ++ [c3Resp0.message])
                  ++ [mkToolMessage "R:a1" "id1", mkToolMessage "R:a2" "id2"]
                  ++ [mkMsg "system" (NplService.nudgeContent (functionListString [c3Tool]))])
              :: tail) :=
  ⟨rfl,
   (functionCalling_multi_tool_round "go" [c3Tool] c3Resp0 c3Resp1 []
      [mkToolMessage "R:a1" "id1", mkToolMessage "R:a2" "id2"]
      [Event.invoke "f" "a1", Event.invoke "f" "a2"] rfl rfl).2.2.2⟩

/-- C5: when the model requests a tool whose name is not in the registry,
the whole run fails: the callbacks before it in the round run, the unknown
request is not skipped (nothing after it runs), no further completion call
is issued (the trace holds only the initial completion and the earlier
invocations), and the surfaced result is a single error wrapping the
underlying `Function <name> not found` message as a function-calling error,
with no partial answer. -/
theorem functionCalling_unknown_tool_fails (input : String) (cbs : List NPLFunction)
    (r0 : LLMResponse) (rest : List LLMResponse) (pre post : List ToolCall)
    (bad : ToolCall) (tms : List ChatMessage) (tevs : List Event)
    (hfin : r0.finish_reason = "tool_calls")
    (hts : r0.message.tool_calls = pre ++ bad :: post)
    (hpre : NplService.execTools cbs pre = (Except.ok tms, tevs))
    (hbad : cbs.find? (fun cb => cb.name == bad.name) = none) :
    NplService.functionCalling input cbs (r0 :: rest)
      = (Except.error ("Function calling error: "
            ++ ("Function " ++ bad.name ++ " not found")),
         Event.completion [mkMsg "system" (NplService.initialSystemContent (functionListString cbs)),
            mkMsg "user" input] :: tevs) := by
  have hend : NplService.execTools cbs r0.message.tool_calls
      = (Except.error ("Function " ++ bad.name ++ " not found"), tevs) := by
    rw [hts]
    exact execTools_unknown_after_ok cbs pre post bad tms tevs hpre hbad
  simp only [NplService.functionCalling]
  rw [runLoop_exec_error cbs _ rest _ r0 _ _ hfin hend]

theorem c5_unknown_tool_witness :
    ([c5Tool].find? (fun cb => cb.name == c5Bad.name) = none)
    ∧ NplService.functionCalling "go" [c5Tool] [c5Resp0]
        = (Except.error "Function calling error: Function missing not found",
           Event.completion [mkMsg "system" (NplService.initialSystemContent (functionListString [c5Tool])),
              mkMsg "user" "go"]
             :: [Event.invoke "f" "a1"]) :=
  ⟨rfl,
   functionCalling_unknown_tool_fails "go" [c5Tool] c5Resp0 [] c5Pre [] c5Bad
     [mkToolMessage "R:a1" "id1"] [Event.invoke "f" "a1"] rfl rfl rfl rfl⟩

/-- C8: every run reaching finalization issues the finalization completion
on a fresh two-message context — a user message restating the original
input and a system message paraphrasing the last assistant content and
asking for a final response — without the accumulated tool-call history,
and returns the finalization completion's content with surrounding
whitespace trimmed. -/
theorem functionCalling_finalization_fresh_context (input : String)
    (cbs : List NPLFunction) (r0 : LLMResponse) (rest rem : List LLMResponse)
    (lastR : LLMResponse) (m : List ChatMessage) (f : LLMResponse)
    (evs : List Event)
    (hrun : NplService.runLoop cbs (mkMsg "system" (NplService.nudgeContent (functionListString cbs)))
        rest [mkMsg "system" (NplService.initialSystemContent (functionListString cbs)),
          mkMsg "user" input] r0
      = (Except.ok (lastR, m, f :: rem), evs)) :
    NplService.functionCalling input cbs (r0 :: rest)
      = (Except.ok (jsTrim f.message.content),
         (Event.completion [mkMsg "system" (NplService.initialSystemContent (functionListString cbs)),
            mkMsg "user" input] :: evs)
           ++ [Event.completion [mkMsg "user" input,
              mkMsg "system" (NplService.finalSystemContent input lastR.message.content)]]) := by
  simp only [NplService.functionCalling]
  rw [hrun]

theorem c8_finalization_witness :
    NplService.runLoop [] (mkMsg "system" (NplService.nudgeContent (functionListString [])))
        [c8Final] [mkMsg "system" (NplService.initialSystemContent (functionListString [])),
          mkMsg "user" "q"] c8Resp0
      = (Except.ok (c8Resp0,
          [mkMsg "system" (NplService.initialSystemContent (functionListString [])),
            mkMsg "user" "q"], [c8Final]), [])
    ∧ NplService.functionCalling "q" [] [c8Resp0, c8Final]
      = (Except.ok "the answer",
         (Event.completion [mkMsg "system" (NplService.initialSystemContent (functionListString [])),
            mkMsg "user" "q"] :: [])
           ++ [Event.completion [mkMsg "user" "q",
              mkMsg "system" (NplService.finalSystemContent "q" "tool result text")]]) :=
  ⟨by rw [runLoop_not_tool_calls _ _ _ _ _ (by decide)],
   functionCalling_finalization_fresh_context "q" [] c8Resp0 [c8Final] []
     c8Resp0 [mkMsg "system" (NplService.initialSystemContent (functionListString [])),
       mkMsg "user" "q"] c8Final []
     (by rw [runLoop_not_tool_calls _ _ _ _ _ (by decide)])⟩

theorem searchItems_parse_ok (complete : List ChatMessage → Option String)
    (searchTerm : String) (items : List String) (constraints : String)
    (m : String) (xs : List Json)
    (hm : complete (NplService.searchItemsMessages searchTerm items constraints) = some m)
    (hj : jsonParse m = some (Json.arr xs))
    (hall : xs.all Json.isIntegerNum = true) :
    NplService.searchItems complete searchTerm items constraints
      = xs.map Json.toIntVal := by
  simp only [NplService.searchItems, hm]
  unfold NplService.validateResponseFormat
  rw [hj]
  simp [hall]

theorem searchItems_parse_bad (complete : List ChatMessage → Option String)
    (searchTerm : String) (items : List String) (constraints : String)
    (m : String)
    (hm : complete (NplService.searchItemsMessages searchTerm items constraints) = some m)
    (hfail : isIntArrayResp (jsonParse m) = false) :
    NplService.searchItems complete searchTerm items constraints = [] := by
  simp only [NplService.searchItems, hm]
  unfold NplService.validateResponseFormat
  cases hj : jsonParse m with
  | none => rfl
  | some j =>
    cases j with
    | arr xs =>
      have hf : xs.all Json.isIntegerNum = false := by
        simpa [isIntArrayResp, hj] using hfail
      simp [hf]
    | null => rfl
    | bool b => rfl
    | num v i => rfl
    | str s => rfl
    | obj fs => rfl

/-- C6: a `searchItems` call whose model response does not parse as a JSON
array of integers (non-JSON, non-array, or wrong-shaped elements) returns
the empty list to the caller instead of propagating a failure, and a
response that does parse as such an array is returned as the list of
indices. -/
theorem searchItems_swallows_invalid_responses
    (complete : List ChatMessage → Option String)
    (searchTerm : String) (items : List String) (constraints : String)
    (m : String)
    (hm : complete (NplService.searchItemsMessages searchTerm items constraints) = some m) :
    (isIntArrayResp (jsonParse m) = false →
      NplService.searchItems complete searchTerm items constraints = [])
    ∧ ∀ xs, jsonParse m = some (Json.arr xs) → xs.all Json.isIntegerNum = true →
        NplService.searchItems complete searchTerm items constraints
          = xs.map Json.toIntVal := by
  constructor
  · intro hfail
    exact searchItems_parse_bad complete searchTerm items constraints m hm hfail
  · intro xs hj hall
    exact searchItems_parse_ok complete searchTerm items constraints m xs hm hj hall

theorem c6_invalid_response_witness :
    (isIntArrayResp (jsonParse "oops, not json") = false
      ∧ NplService.searchItems (fun _ => some "oops, not json") "term" ["item1"] "" = [])
    ∧ (jsonParse "[2, 1]" = some (Json.arr [Json.num 2 true, Json.num 1 true])
      ∧ NplService.searchItems (fun _ => some "[2, 1]") "term" ["item1"] "" = [2, 1]) := by
  constructor
  · exact ⟨rfl,
      (searchItems_swallows_invalid_responses (fun _ => some "oops, not json")
        "term" ["item1"] "" "oops, not json" rfl).1 rfl⟩
  · refine ⟨rfl, ?_⟩
    exact (searchItems_swallows_invalid_responses (fun _ => some "[2, 1]")
      "term" ["item1"] "" "[2, 1]" rfl).2 [Json.num 2 true, Json.num 1 true] rfl rfl

/-- C7: evaluating `searchByName` at an empty search result (the model
answers `[]`, so `searchItems` yields no indices) shows that the
`NotFoundException` thrown inside the `try` block is caught by the
function's own `catch` and rewrapped, so the caller sees a
`BadRequestException` — a generic system failure — rather than the distinct
"not found" business error the specification (and the function's doc
comment) promises. -/
theorem searchByName_empty_result_bad_request :
    ProductService.searchByName
        [Product.mk "iPhone 12" "e" "u" "i" "t" "d" "p" "v" "c"]
        (fun _ => some "[]") "phone"
      = Except.error (HttpError.badRequest
          "Unable to search products: No products found for: phone") := rfl

/-- C9: the indices returned by `searchItems` are used without any bounds or
positivity check — each index `i` selects the catalog entry at position
`i - 1`, so a non-empty index list containing values outside `1..N`
produces `undefined` entries serialized as `null` in the returned JSON
string, and no error is raised. -/
theorem searchByName_unchecked_indices (products : List Product)
    (complete : List ChatMessage → Option String) (name : String)
    (m : String) (xs : List Json)
    (hm : complete (NplService.searchItemsMessages name
      (products.map (fun p => p.displayTitle)) "Must select 2 items.") = some m)
    (hj : jsonParse m = some (Json.arr xs))
    (hall : xs.all Json.isIntegerNum = true)
    (hne : xs ≠ []) :
    ProductService.searchByName products complete name
      = Except.ok (jsonStringifyProducts
          ((xs.map Json.toIntVal).map (fun index => listGetJS products (index - 1))))
    ∧ ∀ i ∈ xs.map Json.toIntVal, (i < 1 ∨ (products.length : Int) < i) →
        optProductToJson (listGetJS products (i - 1)) = "null" := by
  have hsi : NplService.searchItems complete name
      (products.map (fun p => p.displayTitle)) "Must select 2 items."
      = xs.map Json.toIntVal :=
    searchItems_parse_ok complete name _ _ m xs hm hj hall
  constructor
  · simp only [ProductService.searchByName]
    rw [hsi]
    have hlen : ¬((xs.map Json.toIntVal).length = 0) := by
      simpa using hne
    rw [if_neg hlen]
  · intro i _hi hrange
    have hnone : listGetJS products (i - 1) = none := by
      unfold listGetJS
      rw [dif_neg]
      intro hcond
      obtain ⟨hge, hlt⟩ := hcond
      rcases hrange with hlow | hhigh
      · omega
      · omega
    rw [hnone]
    rfl

theorem c9_out_of_range_witness :
    ProductService.searchByName [Product.mk "iPhone 12" "e" "u" "i" "t" "d" "p" "v" "c"]
        (fun _ => some "[0, 5]") "phone"
      = Except.ok "[null,null]"
    ∧ optProductToJson (listGetJS
        [Product.mk "iPhone 12" "e" "u" "i" "t" "d" "p" "v" "c"] ((0 : Int) - 1)) = "null" := by
  have h := searchByName_unchecked_indices
    [Product.mk "iPhone 12" "e" "u" "i" "t" "d" "p" "v" "c"]
    (fun _ => some "[0, 5]") "phone" "[0, 5]"
    [Json.num 0 true, Json.num 5 true] rfl rfl rfl (by exact List.cons_ne_nil _ _)
  exact ⟨h.1, h.2 0 (by decide) (by decide)⟩

/-- C10 counterexample: both currency codes are present in the fetched
currency list and in the fetched rates table, yet `convert` fails (the
source's truthiness test `!ratesData.rates[from]` rejects the present but
zero rate), refuting the claim that presence alone guarantees the
cross-rate value is returned. -/
theorem convert_present_codes_can_fail :
    jsLookup [("USD", "United States Dollar"), ("EUR", "Euro")] "USD"
        = some "United States Dollar"
    ∧ jsLookup [("USD", "United States Dollar"), ("EUR", "Euro")] "EUR" = some "Euro"
    ∧ jsLookup [("USD", (0 : ℚ)), ("EUR", (1 : ℚ))] "USD" = some 0
    ∧ jsLookup [("USD", (0 : ℚ)), ("EUR", (1 : ℚ))] "EUR" = some 1
    ∧ CurrencyService.convert (some [("USD", "United States Dollar"), ("EUR", "Euro")])
        (some [("USD", (0 : ℚ)), ("EUR", (1 : ℚ))]) 100 "USD" "EUR"
      = Except.error "CurrencyService: Exchange rate data not found for the currency code(s): \"USD\" or \"EUR\". Please ensure both codes are valid." :=
  ⟨rfl, rfl, rfl, rfl, rfl⟩

/-- C10 (amended): when both currency codes map to truthy entries — a
non-empty name in the fetched currency list and a nonzero rate in the
fetched rates table — `convert` returns `(amount / rates[from]) * rates[to]`,
the cross-rate through the rate table's base currency; if either fetch is
non-2xx, or either code is absent or maps to a falsy value (an empty name,
a zero rate), the call fails with an error and returns no value. -/
theorem convert_cross_rate_spec (cs : List (String × String))
    (rs : List (String × ℚ)) (amount : ℚ) (fromCode toCode : String) :
    (truthyStr (jsLookup cs fromCode) = true → truthyStr (jsLookup cs toCode) = true →
      truthyRat (jsLookup rs fromCode) = true → truthyRat (jsLookup rs toCode) = true →
      CurrencyService.convert (some cs) (some rs) amount fromCode toCode
        = Except.ok ((amount / (jsLookup rs fromCode).getD 0)
            * (jsLookup rs toCode).getD 0))
    ∧ ((truthyStr (jsLookup cs fromCode) = false ∨ truthyStr (jsLookup cs toCode) = false) →
        ∃ e, CurrencyService.convert (some cs) (some rs) amount fromCode toCode
          = Except.error e)
    ∧ (truthyStr (jsLookup cs fromCode) = true → truthyStr (jsLookup cs toCode) = true →
       (truthyRat (jsLookup rs fromCode) = false ∨ truthyRat (jsLookup rs toCode) = false) →
        ∃ e, CurrencyService.convert (some cs) (some rs) amount fromCode toCode
          = Except.error e)
    ∧ (∃ e, CurrencyService.convert none (some rs) amount fromCode toCode = Except.error e)
    ∧ (∃ e, CurrencyService.convert (some cs) none amount fromCode toCode = Except.error e) := by
  refine ⟨?_, ?_, ?_, ⟨_, rfl⟩, ?_⟩
  · intro h1 h2 h3 h4
    simp [CurrencyService.convert, h1, h2, h3, h4]
  · intro h
    refine ⟨"CurrencyService: Invalid currency code(s): \"" ++ fromCode ++ "\" or \""
      ++ toCode ++ "\". Please ensure both codes are valid.", ?_⟩
    rcases h with h | h <;> simp [CurrencyService.convert, h]
  · intro h1 h2 h
    refine ⟨"CurrencyService: Exchange rate data not found for the currency code(s): \""
      ++ fromCode ++ "\" or \"" ++ toCode ++ "\". Please ensure both codes are valid.", ?_⟩
    rcases h with h | h <;> simp [CurrencyService.convert, h1, h2, h]
  · cases hc : !truthyStr (jsLookup cs fromCode) || !truthyStr (jsLookup cs toCode) with
    | true =>
      refine ⟨"CurrencyService: Invalid currency code(s): \"" ++ fromCode ++ "\" or \""
        ++ toCode ++ "\". Please ensure both codes are valid.", ?_⟩
      simp [CurrencyService.convert, hc]
    | false =>
      refine ⟨"CurrencyService: Unable to fetch the latest exchange rates. Please check the API endpoint.", ?_⟩
      simp [CurrencyService.convert, hc]

theorem c10_cross_rate_witness :
    CurrencyService.convert (some [("USD", "United States Dollar"), ("EUR", "Euro")])
        (some [("USD", (2 : ℚ)), ("EUR", (4 : ℚ))]) 100 "USD" "EUR"
      = Except.ok 200 := by
  have h := (convert_cross_rate_spec
    [("USD", "United States Dollar"), ("EUR", "Euro")]
    [("USD", (2 : ℚ)), ("EUR", (4 : ℚ))] 100 "USD" "EUR").1 rfl rfl rfl rfl
  rw [h]
  have hf : (jsLookup [("USD", (2 : ℚ)), ("EUR", (4 : ℚ))] "USD").getD 0 = 2 := rfl
  have ht : (jsLookup [("USD", (2 : ℚ)), ("EUR", (4 : ℚ))] "EUR").getD 0 = 4 := rfl
  rw [hf, ht]
  norm_num
